import Mathlib

/-!
Shallow embedding of the asset-management server (`src/index.js`).

The MongoDB collections become lists of records; `findOne` becomes
`List.find?` (first match), `updateOne` with `$set` updates the first
matching record, `insertOne` appends, `deleteOne` removes the first match.
Each route handler becomes a pure function `DB → args → Outcome × DB`.
A JavaScript `TypeError` thrown by dereferencing a `null` lookup result is
caught by the handler's `try/catch` and surfaces as HTTP 500; it is
modelled by the outcome `internalError` (with whatever writes had already
happened kept, since MongoDB writes are not rolled back).
-/

/-- HTTP-level outcomes of the handlers, one constructor per distinct
response the source can produce on the modelled routes. -/
inductive Outcome where
  /-- 201 Created -/
  | created
  /-- 200 OK -/
  | ok
  /-- 409 "Asset Already Assigned" / "Already Assigned" -/
  | alreadyAssigned
  /-- 409 package-limit-reached message -/
  | limitReached
  /-- 404 "HR not found" -/
  | hrNotFound
  /-- 409 "Already Requested" -/
  | alreadyRequested
  /-- 404 "Request Not Found" -/
  | requestNotFound
  /-- 409 "Request Already Approved" -/
  | alreadyApproved
  /-- 409 "Already Processed" -/
  | alreadyProcessed
  /-- 200 "Payment already recorded" replay response -/
  | paymentAlreadyRecorded
  /-- 500 "Internal Server Error" (thrown exception caught by the handler) -/
  | internalError
  deriving DecidableEq, Repr

/-- A document of `users-am`: an account (HR or employee). -/
structure Account where
  email : String
  role : String
  companyLogo : String
  packageLimit : Int
  currentEmployees : Int
  deriving DecidableEq, Repr

/-- A document of `assets-am`. `id` models the Mongo `_id` as a string. -/
structure Asset where
  id : String
  hrEmail : String
  productName : String
  productImage : String
  productType : String
  availableQuantity : Int
  deriving DecidableEq, Repr

/-- A document of `requests-am`. -/
structure Request where
  id : String
  assetId : String
  requesterEmail : String
  requesterName : String
  hrEmail : String
  companyName : String
  requestStatus : String
  requestDate : String
  approvalDate : Option String
  deriving DecidableEq, Repr

/-- A document of `assignedAssets-db`. -/
structure Assignment where
  assetId : String
  assetName : String
  assetImage : String
  assetType : String
  employeeEmail : String
  employeeName : String
  hrEmail : String
  companyName : String
  assignmentDate : String
  returnDate : Option String
  status : String
  deriving DecidableEq, Repr

/-- A document of `employeeAffiliations-am`. -/
structure Affiliation where
  employeeName : String
  employeeEmail : String
  companyName : String
  companyLogo : String
  hrEmail : String
  affiliationDate : String
  status : String
  deriving DecidableEq, Repr

/-- A document of `packages-am` (read-only catalog). -/
structure Package where
  id : String
  name : String
  deriving DecidableEq, Repr

/-- A document of `payments-am`. `transitionId` is the source's (sic)
field name for the external transaction id (`session.payment_intent`). -/
structure Payment where
  hrEmail : String
  packageName : String
  transitionId : String
  amount : Int
  employeeLimit : Int
  paymentDate : String
  status : String
  deriving DecidableEq, Repr

/-- The whole document store: one list per collection. -/
structure DB where
  users : List Account
  assets : List Asset
  requests : List Request
  assignedAssets : List Assignment
  employeeAffiliations : List Affiliation
  packages : List Package
  payments : List Payment
  deriving DecidableEq, Repr

/-- Mongo `updateOne` with `$set`: rewrite the first record matching `p`. -/
def updateFirst (p : α → Bool) (f : α → α) : List α → List α
  | [] => []
  | x :: xs => if p x then f x :: xs else x :: updateFirst p f xs

/-- Mongo `deleteOne`: remove the first record matching `p`. -/
def deleteFirst (p : α → Bool) : List α → List α
  | [] => []
  | x :: xs => if p x then xs else x :: deleteFirst p xs

/-- The checkout session retrieved from the payment provider
(`stripe.checkout.sessions.retrieve`): the fields the handler reads. -/
structure StripeSession where
  paymentStatus : String
  customerEmail : String
  amountTotal : Int
  paymentIntent : String
  packageId : String
  employeeLimit : Int
  deriving DecidableEq, Repr

/-- The account update both linking handlers apply to the HR on success:
`packageLimit` is set to the previously read limit minus 1, and
`currentEmployees` to the previously read count plus 1 when the pair had
no Affiliation (`isNew`), else to the unchanged count (source lines
483-497 and 660-673). -/
def hrAfterLink (hr : Account) (isNew : Bool) (u : Account) : Account :=
  { u with
    packageLimit := hr.packageLimit - 1,
    currentEmployees :=
      if isNew then hr.currentEmployees + 1 else hr.currentEmployees }

/-- Handler for `POST /assigned-assets` (direct assignment by HR).  The body is the
full assignment record, inserted as-is; `now` is the clock value used for
the affiliation date.  Source `src/index.js` lines 446–523.  Note that the
source checks `hr.packageLimit === 0` (line 472) before `if (!hr)`
(line 479): when the HR account is absent the property read throws a
`TypeError`, so the 404 branch is unreachable and the handler answers 500. -/
def assignDirectly (d : DB) (a : Assignment) (now : String) : Outcome × DB :=
  match d.assignedAssets.find?
      (fun x => x.employeeEmail == a.employeeEmail && x.assetId == a.assetId) with
  | some _ => (.alreadyAssigned, d)
  | none =>
    let existingAff := d.employeeAffiliations.find?
      (fun x => x.employeeEmail == a.employeeEmail && x.hrEmail == a.hrEmail)
    match d.users.find? (fun u => u.email == a.hrEmail) with
    | none => (.internalError, d)
    | some hr =>
      if hr.packageLimit == 0 then (.limitReached, d)
      else
        let users' := updateFirst (fun u => u.email == a.hrEmail)
          (hrAfterLink hr existingAff.isNone) d.users
        let assigned' := d.assignedAssets ++ [a]
        let affs' :=
          if existingAff.isNone then
            d.employeeAffiliations ++
              [⟨a.employeeName, a.employeeEmail, a.companyName, hr.companyLogo,
                a.hrEmail, now, "active"⟩]
          else d.employeeAffiliations
        (.created, { d with users := users', assignedAssets := assigned',
                            employeeAffiliations := affs' })

/-- Handler for `POST /asset-requests`.  `r` is the client body, `tokenEmail` the
verified caller; the duplicate lookup keys on `(assetId, tokenEmail)` with
no status filter.  Source `src/index.js` lines 526–548. -/
def submitAssetRequest (d : DB) (r : Request) (tokenEmail now : String) :
    Outcome × DB :=
  let r' := { r with requestDate := now, approvalDate := none,
                     requestStatus := "pending" }
  match d.requests.find?
      (fun x => x.assetId == r.assetId && x.requesterEmail == tokenEmail) with
  | some _ => (.alreadyRequested, d)
  | none => (.created, { d with requests := d.requests ++ [r'] })

/-- Handler for `PATCH /approve-employee-requests/:id`.  `id` is the route parameter,
`requestStatus` and `assetId` come from the body, `now` is the clock.
Source `src/index.js` lines 581–698.  The source dereferences
`asset.availableQuantity` (line 600) before any request/HR check, so an
absent asset throws and answers 500; it dereferences `hr.packageLimit`
(line 660) before the `packageLimit === 0` guard (line 675), so an absent
HR account also answers 500.  No floor check precedes the quantity
decrement. -/
def approveRequest (d : DB) (id requestStatus assetId now : String) :
    Outcome × DB :=
  match d.assets.find? (fun x => x.id == assetId) with
  | none => (.internalError, d)
  | some asset =>
    let latestQuantity := asset.availableQuantity - 1
    match d.requests.find? (fun x => x.id == id) with
    | none => (.requestNotFound, d)
    | some request =>
      if request.requestStatus == "approved" then (.alreadyApproved, d)
      else
        match d.assignedAssets.find? (fun x =>
            x.assetId == asset.id && x.employeeEmail == request.requesterEmail
              && x.status == "assigned") with
        | some _ => (.alreadyAssigned, d)
        | none =>
          let existingAff := d.employeeAffiliations.find? (fun x =>
            x.employeeEmail == request.requesterEmail
              && x.hrEmail == request.hrEmail)
          match d.users.find? (fun u => u.email == request.hrEmail) with
          | none => (.internalError, d)
          | some hr =>
            if hr.packageLimit == 0 then (.limitReached, d)
            else
              let users' := updateFirst (fun u => u.email == hr.email)
                (hrAfterLink hr existingAff.isNone) d.users
              let assets' := updateFirst (fun x => x.id == assetId)
                (fun x => { x with availableQuantity := latestQuantity })
                d.assets
              let assigned' := d.assignedAssets ++
                [⟨asset.id, asset.productName, asset.productImage,
                  asset.productType, request.requesterEmail,
                  request.requesterName, request.hrEmail, request.companyName,
                  now, none, "assigned"⟩]
              let requests' := updateFirst (fun x => x.id == id)
                (fun x => { x with requestStatus := requestStatus,
                                   approvalDate := some now }) d.requests
              let affs' :=
                if existingAff.isNone then
                  d.employeeAffiliations ++
                    [⟨request.requesterName, request.requesterEmail,
                      request.companyName, hr.companyLogo, request.hrEmail,
                      now, "active"⟩]
                else d.employeeAffiliations
              (.ok, { users := users', assets := assets',
                      requests := requests', assignedAssets := assigned',
                      employeeAffiliations := affs', packages := d.packages,
                      payments := d.payments })

/-- Handler for `PATCH /reject-employee-requests/:id`.  Source `src/index.js`
lines 701–734.  Rejects unless the request is still `pending`, then writes
the body's `requestStatus`. -/
def rejectRequest (d : DB) (id requestStatus : String) : Outcome × DB :=
  match d.requests.find? (fun x => x.id == id) with
  | none => (.requestNotFound, d)
  | some existingRequest =>
    if existingRequest.requestStatus != "pending" then (.alreadyProcessed, d)
    else
      let requests' := updateFirst (fun x => x.id == id)
        (fun x => { x with requestStatus := requestStatus }) d.requests
      (.ok, { d with requests := requests' })

/-- Handler for `POST /payment-success`.  `s` is the session retrieved from the payment
provider.  Source `src/index.js` lines 232–289.  The replay check on
`transitionId` precedes the insert; the `hr.packageLimit` read (line 269)
happens only after the payment insert, so an absent HR answers 500 with
the payment already recorded. -/
def paymentSuccess (d : DB) (s : StripeSession) (now : String) :
    Outcome × DB :=
  if s.paymentStatus == "paid" then
    match d.packages.find? (fun p => p.id == s.packageId) with
    | none => (.ok, d)
    | some packageData =>
      if (d.payments.find? (fun p => p.transitionId == s.paymentIntent)).isSome
      then (.paymentAlreadyRecorded, d)
      else
        let orderInfo : Payment :=
          ⟨s.customerEmail, packageData.name, s.paymentIntent,
           s.amountTotal / 100, s.employeeLimit, now, "completed"⟩
        let d1 := { d with payments := d.payments ++ [orderInfo] }
        match d.users.find? (fun u => u.email == s.customerEmail) with
        | none => (.internalError, d1)
        | some hr =>
          let users' := updateFirst (fun u => u.email == s.customerEmail)
            (fun u => { u with
              packageLimit := hr.packageLimit + s.employeeLimit }) d1.users
          (.ok, { d1 with users := users' })
  else (.ok, d)

/-- Handler for `DELETE /my-employees/:email`.  Source `src/index.js` lines 788–805:
`deleteOne({ employeeEmail })` — the filter names the employee only, never
the calling HR, and no account counter is touched. -/
def deleteMyEmployee (d : DB) (employeeEmail : String) : DB :=
  let affs' := deleteFirst (fun x => x.employeeEmail == employeeEmail)
    d.employeeAffiliations
  { d with employeeAffiliations := affs' }

/-- The status of the first request with the given id, if any. -/
def statusOf (d : DB) (rid : String) : Option String :=
  (d.requests.find? (fun x => x.id == rid)).map Request.requestStatus

/-- The `currentEmployees` counter of the first account with the given
email, if any. -/
def curEmployees (d : DB) (email : String) : Option Int :=
  (d.users.find? (fun u => u.email == email)).map Account.currentEmployees

/-- The `packageLimit` counter of the first account with the given email,
if any. -/
def curPackageLimit (d : DB) (email : String) : Option Int :=
  (d.users.find? (fun u => u.email == email)).map Account.packageLimit

/-- Number of affiliation records for an (employee, HR) pair. -/
def affPairCount (d : DB) (e h : String) : Nat :=
  (d.employeeAffiliations.filter
    (fun x => x.employeeEmail == e && x.hrEmail == h)).length

/-- Number of affiliation records naming the given HR. -/
def affHRCount (d : DB) (h : String) : Nat :=
  (d.employeeAffiliations.filter (fun x => x.hrEmail == h)).length

theorem updateFirst_of_forall_neg {p : α → Bool} (f : α → α) {l : List α}
    (h : ∀ x ∈ l, ¬ p x = true) : updateFirst p f l = l := by
  induction l with
  | nil => rfl
  | cons x xs ih =>
    simp only [updateFirst]
    rw [if_neg (h x (List.mem_cons_self x xs))]
    rw [ih (fun y hy => h y (List.mem_cons_of_mem x hy))]

theorem updateFirst_decomp {p : α → Bool} (f : α → α) {l : List α} {a : α}
    (h : l.find? p = some a) :
    ∃ l₁ l₂, l = l₁ ++ a :: l₂ ∧ (∀ y ∈ l₁, ¬ p y = true) ∧
      updateFirst p f l = l₁ ++ f a :: l₂ := by
  induction l with
  | nil => simp [List.find?] at h
  | cons x xs ih =>
    by_cases hx : p x = true
    · rw [List.find?_cons_of_pos _ hx] at h
      obtain rfl : x = a := by injection h
      exact ⟨[], xs, rfl, by simp, by simp [updateFirst, hx]⟩
    · rw [List.find?_cons_of_neg _ hx] at h
      obtain ⟨l₁, l₂, hl, hneg, hupd⟩ := ih h
      refine ⟨x :: l₁, l₂, by simp [hl], ?_, ?_⟩
      · intro y hy
        rcases List.mem_cons.mp hy with rfl | hy
        · exact hx
        · exact hneg y hy
      · simp only [updateFirst, if_neg hx, hupd, List.cons_append]

theorem deleteFirst_decomp {p : α → Bool} {l : List α} {a : α}
    (h : l.find? p = some a) :
    ∃ l₁ l₂, l = l₁ ++ a :: l₂ ∧ (∀ y ∈ l₁, ¬ p y = true) ∧
      deleteFirst p l = l₁ ++ l₂ := by
  induction l with
  | nil => simp [List.find?] at h
  | cons x xs ih =>
    by_cases hx : p x = true
    · rw [List.find?_cons_of_pos _ hx] at h
      obtain rfl : x = a := by injection h
      exact ⟨[], xs, rfl, by simp, by simp [deleteFirst, hx]⟩
    · rw [List.find?_cons_of_neg _ hx] at h
      obtain ⟨l₁, l₂, hl, hneg, hdel⟩ := ih h
      refine ⟨x :: l₁, l₂, by simp [hl], ?_, ?_⟩
      · intro y hy
        rcases List.mem_cons.mp hy with rfl | hy
        · exact hx
        · exact hneg y hy
      · simp only [deleteFirst, if_neg hx, hdel, List.cons_append]

theorem deleteFirst_of_forall_neg {p : α → Bool} {l : List α}
    (h : ∀ x ∈ l, ¬ p x = true) : deleteFirst p l = l := by
  induction l with
  | nil => rfl
  | cons x xs ih =>
    simp only [deleteFirst]
    rw [if_neg (h x (List.mem_cons_self x xs))]
    rw [ih (fun y hy => h y (List.mem_cons_of_mem x hy))]

theorem find?_updateFirst_map {p : α → Bool} (f : α → α) (l : List α)
    (hf : ∀ a, p a = true → p (f a) = true) :
    (updateFirst p f l).find? p = (l.find? p).map f := by
  induction l with
  | nil => rfl
  | cons x xs ih =>
    by_cases hx : p x = true
    · simp only [updateFirst, if_pos hx]
      rw [List.find?_cons_of_pos _ (hf x hx), List.find?_cons_of_pos _ hx]
      rfl
    · simp only [updateFirst, if_neg hx]
      rw [List.find?_cons_of_neg _ hx, List.find?_cons_of_neg _ hx]
      exact ih

theorem mem_of_mem_updateFirst {p : α → Bool} {f : α → α} {l : List α} {x : α}
    (hx : x ∈ updateFirst p f l) :
    x ∈ l ∨ ∃ a, l.find? p = some a ∧ x = f a := by
  induction l with
  | nil => simp [updateFirst] at hx
  | cons y ys ih =>
    by_cases hy : p y = true
    · simp only [updateFirst, if_pos hy] at hx
      rcases List.mem_cons.mp hx with rfl | hx
      · exact Or.inr ⟨y, List.find?_cons_of_pos _ hy, rfl⟩
      · exact Or.inl (List.mem_cons_of_mem _ hx)
    · simp only [updateFirst, if_neg hy] at hx
      rcases List.mem_cons.mp hx with rfl | hx
      · exact Or.inl (List.mem_cons_self ..)
      · rcases ih hx with h | ⟨a, ha, rfl⟩
        · exact Or.inl (List.mem_cons_of_mem _ h)
        · exact Or.inr ⟨a, by rw [List.find?_cons_of_neg _ hy]; exact ha, rfl⟩

/-! Concrete records used to exercise the handlers. -/

/-- An HR account with seats remaining. -/
def exHR : Account := ⟨"hr@acme.com", "hr", "logo.png", 5, 0⟩

/-- An HR account whose package limit is exhausted. -/
def exHR0 : Account := ⟨"hr@acme.com", "hr", "logo.png", 0, 3⟩

/-- An asset with zero remaining quantity. -/
def exAsset0 : Asset := ⟨"a1", "hr@acme.com", "Laptop", "l.png", "returnable", 0⟩

/-- An asset with stock remaining. -/
def exAsset1 : Asset := ⟨"a1", "hr@acme.com", "Laptop", "l.png", "returnable", 4⟩

/-- A second asset with stock remaining. -/
def exAsset2 : Asset := ⟨"a2", "hr@acme.com", "Mouse", "m.png", "returnable", 4⟩

/-- A pending request by employee `emp@x.com` for asset `a1`. -/
def exReqPending : Request :=
  ⟨"r1", "a1", "emp@x.com", "Emp", "hr@acme.com", "Acme", "pending", "t0", none⟩

/-- A pending request by employee `emp@x.com` for asset `a2`. -/
def exReqPending2 : Request :=
  ⟨"r2", "a2", "emp@x.com", "Emp", "hr@acme.com", "Acme", "pending", "t0", none⟩

/-- A rejected request by employee `emp@x.com` for asset `a1`. -/
def exReqRejected : Request :=
  ⟨"r1", "a1", "emp@x.com", "Emp", "hr@acme.com", "Acme", "rejected", "t0", none⟩

/-- A returned (no longer held) assignment of `a1` to `emp@x.com`. -/
def exAsgReturned : Assignment :=
  ⟨"a1", "Laptop", "l.png", "returnable", "emp@x.com", "Emp", "hr@acme.com",
   "Acme", "t0", some "t1", "returned"⟩

/-- A direct-assignment request body for asset `a1` and employee `emp@x.com`. -/
def exAsgBody : Assignment :=
  ⟨"a1", "Laptop", "l.png", "returnable", "emp@x.com", "Emp", "hr@acme.com",
   "Acme", "t2", none, "assigned"⟩

/-- A direct-assignment request body for asset `a2` and employee `emp@x.com`. -/
def exAsgBody2 : Assignment :=
  ⟨"a2", "Mouse", "m.png", "returnable", "emp@x.com", "Emp", "hr@acme.com",
   "Acme", "t3", none, "assigned"⟩

/-- An affiliation of `emp@x.com` with HR `hr@acme.com`. -/
def exAff : Affiliation :=
  ⟨"Emp", "emp@x.com", "Acme", "logo.png", "hr@acme.com", "t0", "active"⟩

/-- An affiliation of `emp@x.com` with a different HR, `hr@beta.com`. -/
def exAffOther : Affiliation :=
  ⟨"Emp", "emp@x.com", "Beta", "b.png", "hr@beta.com", "t0", "active"⟩

/-- A catalog package. -/
def exPkg : Package := ⟨"p1", "Gold"⟩

/-- A paid checkout session granting 10 seats of package `p1`. -/
def exSession : StripeSession := ⟨"paid", "hr@acme.com", 1000, "tx1", "p1", 10⟩

/-! ### C7 — approveRequest with an absent asset -/

/-- Auxiliary to C7: whenever the referenced asset is absent from the
inventory, the approve handler answers with the 500 outcome and leaves the
store untouched (the source reads `asset.availableQuantity` off the `null`
lookup result, throwing before any check or write). -/
theorem approve_absent_asset_500 (d : DB) (id st assetId now : String)
    (h : d.assets.find? (fun x => x.id == assetId) = none) :
    approveRequest d id st assetId now = (.internalError, d) := by
  simp only [approveRequest, h]

/-- C7 witness: the 500-on-absent-asset theorem applied to a concrete
store holding a pending request whose asset has been deleted. -/
theorem approve_absent_asset_500_witness :
    approveRequest (DB.mk [exHR] [] [exReqPending] [] [] [] [])
      "r1" "approved" "a1" "t2" =
      (.internalError, DB.mk [exHR] [] [exReqPending] [] [] [] []) :=
  approve_absent_asset_500 (DB.mk [exHR] [] [exReqPending] [] [] [] [])
    "r1" "approved" "a1" "t2" rfl

/-- C7 counterexample: with a pending request `r1` whose asset `a1` is
absent from the inventory, `approveRequest` answers `internalError`
(HTTP 500, the caught `TypeError` from `asset.availableQuantity`), not the
ASSET_NOT_FOUND (404) rejection the claim asserts — the handler has no
asset-existence branch at all.  The state is indeed unchanged. -/
theorem approve_absent_asset_cx :
    (DB.mk [exHR] [] [exReqPending] [] [] [] []).assets.find?
        (fun x => x.id == "a1") = none ∧
    approveRequest (DB.mk [exHR] [] [exReqPending] [] [] [] [])
        "r1" "approved" "a1" "t2" =
      (.internalError, DB.mk [exHR] [] [exReqPending] [] [] [] []) := by
  constructor
  · rfl
  · rfl

/-! ### C8 — assignDirectly with an absent HR account -/

/-- C8: with no account for the HR email (and no prior assignment for the
pair), `assignDirectly` answers `internalError` (HTTP 500): the source
reads `hr.packageLimit` (line 472) before its own `if (!hr)` 404 branch
(line 479), so the HR_NOT_FOUND rejection the claim (and the source's own
dead branch) intend is unreachable.  No state is mutated. -/
theorem assign_absent_hr_500 :
    (DB.mk [] [exAsset1] [] [] [] [] []).users.find?
        (fun u => u.email == exAsgBody.hrEmail) = none ∧
    assignDirectly (DB.mk [] [exAsset1] [] [] [] [] []) exAsgBody "t2" =
      (.internalError, DB.mk [] [exAsset1] [] [] [] [] []) := by
  constructor
  · rfl
  · rfl

/-! ### C6 — assignDirectly at packageLimit 0 -/

/-- C6: when the HR account exists with `packageLimit = 0` and no prior
Assignment or Affiliation exists for the pair, `assignDirectly` answers
the 409 limit-reached outcome and returns the store unchanged: no
Assignment, no Affiliation, no asset or account field is written. -/
theorem assign_limit_zero_no_change (d : DB) (a : Assignment) (now : String)
    (hr : Account)
    (hhr : d.users.find? (fun u => u.email == a.hrEmail) = some hr)
    (hlim : hr.packageLimit = 0)
    (hnoAsg : d.assignedAssets.find?
      (fun x => x.employeeEmail == a.employeeEmail && x.assetId == a.assetId)
        = none)
    (_hnoAff : d.employeeAffiliations.find?
      (fun x => x.employeeEmail == a.employeeEmail && x.hrEmail == a.hrEmail)
        = none) :
    assignDirectly d a now = (.limitReached, d) := by
  simp only [assignDirectly, hnoAsg, hhr, hlim]
  rfl

/-- C6 witness: the limit-reached theorem applied to a concrete store
whose HR has `packageLimit = 0`. -/
theorem assign_limit_zero_no_change_witness :
    assignDirectly (DB.mk [exHR0] [exAsset1] [] [] [] [] []) exAsgBody "t2" =
      (.limitReached, DB.mk [exHR0] [exAsset1] [] [] [] [] []) :=
  assign_limit_zero_no_change (DB.mk [exHR0] [exAsset1] [] [] [] [] [])
    exAsgBody "t2" exHR0 rfl rfl rfl rfl

/-! ### C9 — the already-assigned guard of assignDirectly -/

/-- C9 counterexample: the only existing Assignment for the pair has
status `returned`, yet `assignDirectly` is rejected with the 409
already-assigned outcome — the source's duplicate lookup
(`findOne({ employeeEmail, assetId })`, line 453) has no status filter,
contrary to the claim that a returned assignment does not block. -/
theorem assign_returned_blocks_cx :
    (∀ x ∈ (DB.mk [exHR] [exAsset1] [] [exAsgReturned] [] [] []).assignedAssets,
        x.status = "returned") ∧
    assignDirectly (DB.mk [exHR] [exAsset1] [] [exAsgReturned] [] [] [])
        exAsgBody "t2" =
      (.alreadyAssigned, DB.mk [exHR] [exAsset1] [] [exAsgReturned] [] [] []) := by
  constructor
  · intro x hx
    simp only [List.mem_singleton] at hx
    subst hx
    rfl
  · rfl

/-- C9 amended: `assignDirectly` rejects with the already-assigned outcome
if and only if some Assignment — of any status, `returned` included —
exists for the (assetId, employeeEmail) pair. -/
theorem assign_already_assigned_iff (d : DB) (a : Assignment) (now : String) :
    (assignDirectly d a now).1 = .alreadyAssigned ↔
      ∃ x ∈ d.assignedAssets,
        x.employeeEmail = a.employeeEmail ∧ x.assetId = a.assetId := by
  constructor
  · intro hout
    cases hfind : d.assignedAssets.find?
        (fun x => x.employeeEmail == a.employeeEmail && x.assetId == a.assetId)
        with
    | some x =>
      have hmem := List.mem_of_find?_eq_some hfind
      have hp := List.find?_some hfind
      simp only [Bool.and_eq_true, beq_iff_eq] at hp
      exact ⟨x, hmem, hp⟩
    | none =>
      exfalso
      revert hout
      simp only [assignDirectly, hfind]
      cases hhr : d.users.find? (fun u => u.email == a.hrEmail) with
      | none => simp
      | some hr =>
        by_cases hl : hr.packageLimit == 0
        · simp [hl]
        · simp [hl]
  · rintro ⟨x, hmem, he, ha⟩
    have : (d.assignedAssets.find? (fun y =>
        y.employeeEmail == a.employeeEmail && y.assetId == a.assetId)).isSome
        = true := by
      rw [List.find?_isSome]
      exact ⟨x, hmem, by simp [he, ha]⟩
    cases hfind : d.assignedAssets.find?
        (fun y => y.employeeEmail == a.employeeEmail && y.assetId == a.assetId)
        with
    | none => rw [hfind] at this; simp at this
    | some y => simp only [assignDirectly, hfind]

/-! ### C4 — duplicate-request rejection keyed on any existing request -/

/-- C4: if any Request — of any status — already exists for
(assetId, caller), the submission answers the 409 already-requested
outcome and inserts nothing; otherwise exactly one Request is appended,
with `requestStatus = "pending"` and `approvalDate = none`. -/
theorem submit_duplicate_check (d : DB) (r : Request) (tok now : String) :
    ((∃ q ∈ d.requests, q.assetId = r.assetId ∧ q.requesterEmail = tok) →
      submitAssetRequest d r tok now = (.alreadyRequested, d)) ∧
    ((∀ q ∈ d.requests, ¬(q.assetId = r.assetId ∧ q.requesterEmail = tok)) →
      submitAssetRequest d r tok now =
        (.created, { d with requests := d.requests ++
          [{ r with requestDate := now, approvalDate := none,
                    requestStatus := "pending" }] })) := by
  constructor
  · rintro ⟨q, hmem, ha, he⟩
    have hsome : (d.requests.find? (fun x =>
        x.assetId == r.assetId && x.requesterEmail == tok)).isSome = true := by
      rw [List.find?_isSome]
      exact ⟨q, hmem, by simp [ha, he]⟩
    cases hfind : d.requests.find?
        (fun x => x.assetId == r.assetId && x.requesterEmail == tok) with
    | none => rw [hfind] at hsome; simp at hsome
    | some q' => simp only [submitAssetRequest, hfind]
  · intro hall
    have hnone : d.requests.find?
        (fun x => x.assetId == r.assetId && x.requesterEmail == tok) = none := by
      rw [List.find?_eq_none]
      intro q hq
      simp only [Bool.and_eq_true, beq_iff_eq]
      exact fun hc => hall q hq hc
    simp only [submitAssetRequest, hnone]

/-- C4 witness: a first submission against an empty Request Ledger is
created as pending, and a resubmission for the same (asset, caller) pair
is rejected even though the existing request is `rejected`. -/
theorem submit_duplicate_check_witness :
    submitAssetRequest (DB.mk [exHR] [exAsset1] [exReqRejected] [] [] [] [])
        exReqPending "emp@x.com" "t5" =
      (.alreadyRequested, DB.mk [exHR] [exAsset1] [exReqRejected] [] [] [] []) ∧
    submitAssetRequest (DB.mk [exHR] [exAsset1] [] [] [] [] [])
        exReqPending "emp@x.com" "t5" =
      (.created, DB.mk [exHR] [exAsset1]
        [{ exReqPending with
             requestDate := "t5",
             approvalDate := none,
             requestStatus := "pending" }] [] [] [] []) :=
  ⟨(submit_duplicate_check (DB.mk [exHR] [exAsset1] [exReqRejected] [] [] [] [])
      exReqPending "emp@x.com" "t5").1 ⟨exReqRejected, by simp, by decide⟩,
   (submit_duplicate_check (DB.mk [exHR] [exAsset1] [] [] [] [] [])
      exReqPending "emp@x.com" "t5").2 (by simp)⟩

/-! ### C1 — availableQuantity under the four Workflow Engine operations -/

/-- Auxiliary to C1: the approve handler either leaves the Asset Inventory
untouched (one of its rejection branches fired) or rewrites the first
asset matching the body's `assetId` to the unconditionally decremented
quantity. -/
theorem approve_assets_sub (d : DB) (id st aid now : String) :
    (approveRequest d id st aid now).2.assets = d.assets ∨
    ∃ asset, d.assets.find? (fun x => x.id == aid) = some asset ∧
      (approveRequest d id st aid now).2.assets =
        updateFirst (fun x => x.id == aid)
          (fun x => { x with availableQuantity := asset.availableQuantity - 1 })
          d.assets := by
  cases hA : d.assets.find? (fun x => x.id == aid) with
  | none => left; simp [approveRequest, hA]
  | some asset =>
    cases hR : d.requests.find? (fun x => x.id == id) with
    | none => left; simp [approveRequest, hA, hR]
    | some request =>
      by_cases hap : request.requestStatus == "approved"
      · left; simp [approveRequest, hA, hR, hap]
      · cases hAsg : d.assignedAssets.find? (fun x =>
            x.assetId == asset.id && x.employeeEmail == request.requesterEmail
              && x.status == "assigned") with
        | some _ => left; simp [approveRequest, hA, hR, hap, hAsg]
        | none =>
          cases hU : d.users.find? (fun u => u.email == request.hrEmail) with
          | none => left; simp [approveRequest, hA, hR, hap, hAsg, hU]
          | some hr =>
            by_cases hl : hr.packageLimit == 0
            · left; simp [approveRequest, hA, hR, hap, hAsg, hU, hl]
            · right
              refine ⟨asset, rfl, ?_⟩
              simp [approveRequest, hA, hR, hap, hAsg, hU, hl]

/-- C1 amended: `submitAssetRequest`, `assignDirectly` and `rejectRequest`
never touch the Asset Inventory, so they preserve non-negativity of every
`availableQuantity`; `approveRequest` decrements the referenced asset by 1
with no floor check, so it preserves non-negativity only under the extra
assumption that the referenced asset's quantity is at least 1 (from 0 it
produces -1, refuting the claim as stated — see the counterexample). -/
theorem quantity_nonneg_amended (d : DB) (id st aid now : String)
    (r : Request) (tok : String) (a : Assignment) (i s2 : String)
    (h1 : ∀ x ∈ d.assets, 0 ≤ x.availableQuantity)
    (h2 : ∀ x ∈ d.assets, x.id = aid → 1 ≤ x.availableQuantity) :
    (∀ x ∈ (approveRequest d id st aid now).2.assets, 0 ≤ x.availableQuantity) ∧
    (submitAssetRequest d r tok now).2.assets = d.assets ∧
    (assignDirectly d a now).2.assets = d.assets ∧
    (rejectRequest d i s2).2.assets = d.assets := by
  refine ⟨?_, ?_, ?_, ?_⟩
  · rcases approve_assets_sub d id st aid now with he | ⟨asset, hA, he⟩
    · rw [he]; exact h1
    · rw [he]
      intro x hx
      rcases mem_of_mem_updateFirst hx with hm | ⟨b, hb, rfl⟩
      · exact h1 x hm
      · rw [hA] at hb
        injection hb with hb
        subst hb
        have hid : asset.id = aid := by
          have hp := List.find?_some hA
          simpa [beq_iff_eq] using hp
        have hge := h2 asset (List.mem_of_find?_eq_some hA) hid
        show 0 ≤ asset.availableQuantity - 1
        omega
  · cases hf : d.requests.find?
        (fun x => x.assetId == r.assetId && x.requesterEmail == tok) with
    | some q => simp [submitAssetRequest, hf]
    | none => simp [submitAssetRequest, hf]
  · cases hf : d.assignedAssets.find?
        (fun x => x.employeeEmail == a.employeeEmail && x.assetId == a.assetId)
        with
    | some q => simp [assignDirectly, hf]
    | none =>
      cases hu : d.users.find? (fun u => u.email == a.hrEmail) with
      | none => simp [assignDirectly, hf, hu]
      | some hr =>
        by_cases hl : hr.packageLimit == 0
        · simp [assignDirectly, hf, hu, hl]
        · simp [assignDirectly, hf, hu, hl]
  · cases hf : d.requests.find? (fun x => x.id == i) with
    | none => simp [rejectRequest, hf]
    | some q =>
      by_cases hp : q.requestStatus != "pending"
      · simp [rejectRequest, hf, hp]
      · simp [rejectRequest, hf, hp]

/-- C1 witness: the amended preservation theorem applied to a concrete
store whose only asset has quantity 4. -/
theorem quantity_nonneg_amended_witness :
    (∀ x ∈ (approveRequest (DB.mk [exHR] [exAsset1] [exReqPending] [] [] [] [])
        "r1" "approved" "a1" "t2").2.assets, 0 ≤ x.availableQuantity) ∧
    (submitAssetRequest (DB.mk [exHR] [exAsset1] [exReqPending] [] [] [] [])
        exReqPending2 "emp@x.com" "t2").2.assets =
      (DB.mk [exHR] [exAsset1] [exReqPending] [] [] [] []).assets ∧
    (assignDirectly (DB.mk [exHR] [exAsset1] [exReqPending] [] [] [] [])
        exAsgBody2 "t2").2.assets =
      (DB.mk [exHR] [exAsset1] [exReqPending] [] [] [] []).assets ∧
    (rejectRequest (DB.mk [exHR] [exAsset1] [exReqPending] [] [] [] [])
        "r1" "rejected").2.assets =
      (DB.mk [exHR] [exAsset1] [exReqPending] [] [] [] []).assets :=
  quantity_nonneg_amended (DB.mk [exHR] [exAsset1] [exReqPending] [] [] [] [])
    "r1" "approved" "a1" "t2" exReqPending2 "emp@x.com" exAsgBody2 "r1"
    "rejected" (by decide) (by decide)

/-- C1 counterexample: from a store whose asset `a1` has
`availableQuantity = 0` (non-negative) and a pending request for it,
`approveRequest` succeeds and leaves `a1` with `availableQuantity = -1`:
the quantity does go below zero, refuting the claim. -/
theorem approve_negative_quantity_cx :
    (∀ x ∈ (DB.mk [exHR] [exAsset0] [exReqPending] [] [] [] []).assets,
        0 ≤ x.availableQuantity) ∧
    (approveRequest (DB.mk [exHR] [exAsset0] [exReqPending] [] [] [] [])
        "r1" "approved" "a1" "t2").1 = .ok ∧
    ((approveRequest (DB.mk [exHR] [exAsset0] [exReqPending] [] [] [] [])
        "r1" "approved" "a1" "t2").2.assets.find?
        (fun x => x.id == "a1")).map Asset.availableQuantity = some (-1) := by
  refine ⟨?_, rfl, rfl⟩
  intro x hx
  simp only [List.mem_singleton] at hx
  subst hx
  decide

/-! ### C5 — terminality of resolved request statuses -/

/-- An approved request by employee `emp@x.com` for asset `a1`. -/
def exReqApproved : Request :=
  ⟨"r1", "a1", "emp@x.com", "Emp", "hr@acme.com", "Acme", "approved", "t0",
   some "t1"⟩

/-- Auxiliary to C5: updating the first request with id `tid` through an
id-preserving function does not disturb the first request with id `rid`,
provided the two first matches have different statuses (which forces the
two targets apart). -/
theorem find?_updateFirst_other {l : List Request} {rid tid : String}
    (f : Request → Request) (hf : ∀ x, (f x).id = x.id)
    {r rt : Request}
    (hr : l.find? (fun x => x.id == rid) = some r)
    (ht : l.find? (fun x => x.id == tid) = some rt)
    (hne : rt.requestStatus ≠ r.requestStatus) :
    (updateFirst (fun x => x.id == tid) f l).find? (fun x => x.id == rid)
      = some r := by
  by_cases hid : tid = rid
  · subst hid
    rw [ht] at hr
    injection hr with hr
    exact absurd (congrArg Request.requestStatus hr) hne
  · obtain ⟨l₁, l₂, hl, _hneg, hupd⟩ := updateFirst_decomp f ht
    rw [hupd]
    have hrtid : rt.id = tid := by
      have hp := List.find?_some ht
      simpa [beq_iff_eq] using hp
    have hprt : ¬((fun x => x.id == rid) rt = true) := by
      simp only [hrtid, beq_iff_eq]
      exact hid
    have hpfrt : ¬((fun x => x.id == rid) (f rt) = true) := by
      simp only [hf, hrtid, beq_iff_eq]
      exact hid
    rw [hl, List.find?_append] at hr
    rw [List.find?_append]
    rw [List.find?_cons_of_neg (p := fun x => x.id == rid) l₂ hpfrt]
    rw [List.find?_cons_of_neg (p := fun x => x.id == rid) l₂ hprt] at hr
    exact hr

/-- C5 amended: an `approved` request is terminal — no later
`approveRequest` (it answers 409 on its own target, and other targets are
distinct records) or `rejectRequest` (it answers 409 for any non-pending
target) call changes its status.  A `rejected` request, however, is NOT
terminal: `approveRequest` only guards against `approved`, so it moves a
rejected request to `approved` (see the counterexample). -/
theorem approved_is_terminal (d : DB) (rid id st aid now id2 st2 : String)
    (h : statusOf d rid = some "approved") :
    statusOf (approveRequest d id st aid now).2 rid = some "approved" ∧
    statusOf (rejectRequest d id2 st2).2 rid = some "approved" := by
  obtain ⟨r, hfr, hrs⟩ := Option.map_eq_some'.mp h
  constructor
  · cases hA : d.assets.find? (fun x => x.id == aid) with
    | none => simpa [approveRequest, hA] using h
    | some asset =>
      cases hR : d.requests.find? (fun x => x.id == id) with
      | none => simpa [approveRequest, hA, hR] using h
      | some request =>
        by_cases hap : (request.requestStatus == "approved") = true
        · simpa [approveRequest, hA, hR, hap] using h
        · cases hAsg : d.assignedAssets.find? (fun x =>
              x.assetId == asset.id
                && x.employeeEmail == request.requesterEmail
                && x.status == "assigned") with
          | some _ => simpa [approveRequest, hA, hR, hap, hAsg] using h
          | none =>
            cases hU : d.users.find? (fun u => u.email == request.hrEmail) with
            | none => simpa [approveRequest, hA, hR, hap, hAsg, hU] using h
            | some hrAcct =>
              by_cases hl : (hrAcct.packageLimit == 0) = true
              · simpa [approveRequest, hA, hR, hap, hAsg, hU, hl] using h
              · have hne : request.requestStatus ≠ r.requestStatus := by
                  rw [hrs]
                  simpa [beq_iff_eq] using hap
                have hkeep := find?_updateFirst_other
                  (fun x => { x with requestStatus := st,
                                     approvalDate := some now })
                  (fun x => rfl) hfr hR hne
                simp [statusOf, approveRequest, hA, hR, hap, hAsg, hU, hl,
                  hkeep, hrs]
  · cases hR : d.requests.find? (fun x => x.id == id2) with
    | none => simpa [rejectRequest, hR] using h
    | some q =>
      by_cases hp : (q.requestStatus != "pending") = true
      · simpa [rejectRequest, hR, hp] using h
      · have hq : q.requestStatus = "pending" := by
          simpa [bne_iff_ne] using hp
        have hne : q.requestStatus ≠ r.requestStatus := by
          rw [hq, hrs]
          decide
        have hkeep := find?_updateFirst_other
          (fun x => { x with requestStatus := st2 }) (fun x => rfl) hfr hR hne
        simp [statusOf, rejectRequest, hR, hp, hkeep, hrs]

/-- C5 witness: the terminality theorem applied to a concrete store whose
request `r1` is already approved; re-approving answers 409 and rejecting
answers 409, leaving the status `approved`. -/
theorem approved_is_terminal_witness :
    statusOf (approveRequest
        (DB.mk [exHR] [exAsset1] [exReqApproved] [] [] [] [])
        "r1" "approved" "a1" "t3").2 "r1" = some "approved" ∧
    statusOf (rejectRequest
        (DB.mk [exHR] [exAsset1] [exReqApproved] [] [] [] [])
        "r1" "rejected").2 "r1" = some "approved" :=
  approved_is_terminal (DB.mk [exHR] [exAsset1] [exReqApproved] [] [] [] [])
    "r1" "r1" "approved" "a1" "t3" "r1" "rejected" rfl

/-- C5 counterexample: request `r1` has the non-pending status `rejected`,
yet `approveRequest` succeeds (the handler only guards against
`approved`) and moves it to `approved` — a resolved request is not
terminal, refuting the claim. -/
theorem rejected_then_approved_cx :
    statusOf (DB.mk [exHR] [exAsset1] [exReqRejected] [] [] [] []) "r1" =
      some "rejected" ∧
    (approveRequest (DB.mk [exHR] [exAsset1] [exReqRejected] [] [] [] [])
        "r1" "approved" "a1" "t2").1 = .ok ∧
    statusOf (approveRequest
        (DB.mk [exHR] [exAsset1] [exReqRejected] [] [] [] [])
        "r1" "approved" "a1" "t2").2 "r1" = some "approved" := by
  exact ⟨rfl, rfl, rfl⟩

/-! ### C10 — frame effect of the delete-employee route -/

/-- C10: deleting an employee removes at most one Affiliation record — the
first one matching the employee email alone, with no restriction on its
`hrEmail`, so it may belong to a different HR than the caller — and every
other collection, in particular every Account's `currentEmployees` and
`packageLimit`, is untouched.  Consequently, if the deleted record's HR
had `currentEmployees` equal to its affiliation count beforehand, the two
disagree afterwards. -/
theorem delete_employee_frame (d : DB) (e : String) :
    (deleteMyEmployee d e).users = d.users ∧
    (deleteMyEmployee d e).assets = d.assets ∧
    (deleteMyEmployee d e).requests = d.requests ∧
    (deleteMyEmployee d e).assignedAssets = d.assignedAssets ∧
    (deleteMyEmployee d e).packages = d.packages ∧
    (deleteMyEmployee d e).payments = d.payments ∧
    (d.employeeAffiliations.find? (fun x => x.employeeEmail == e) = none →
      deleteMyEmployee d e = d) ∧
    (∀ x₀,
      d.employeeAffiliations.find? (fun x => x.employeeEmail == e) = some x₀ →
      (deleteMyEmployee d e).employeeAffiliations.length + 1 =
        d.employeeAffiliations.length ∧
      affHRCount (deleteMyEmployee d e) x₀.hrEmail + 1 =
        affHRCount d x₀.hrEmail ∧
      (curEmployees d x₀.hrEmail = some ((affHRCount d x₀.hrEmail : Nat) : Int) →
        curEmployees (deleteMyEmployee d e) x₀.hrEmail ≠
          some ((affHRCount (deleteMyEmployee d e) x₀.hrEmail : Nat) : Int))) := by
  refine ⟨rfl, rfl, rfl, rfl, rfl, rfl, ?_, ?_⟩
  · intro hnone
    have hkeep := deleteFirst_of_forall_neg (List.find?_eq_none.mp hnone)
    show { d with employeeAffiliations := _ } = d
    rw [hkeep]
  · intro x₀ hx₀
    obtain ⟨l₁, l₂, hl, _hneg, hdel⟩ := deleteFirst_decomp hx₀
    have hTail : (deleteMyEmployee d e).employeeAffiliations = l₁ ++ l₂ := hdel
    have hcnt : affHRCount (deleteMyEmployee d e) x₀.hrEmail + 1 =
        affHRCount d x₀.hrEmail := by
      unfold affHRCount
      rw [hTail, hl, List.filter_append, List.filter_append, List.filter_cons]
      simp only [beq_self_eq_true, if_true, List.length_append,
        List.length_cons]
      omega
    refine ⟨?_, hcnt, ?_⟩
    · rw [hTail, hl]
      simp only [List.length_append, List.length_cons]
      omega
    · intro hinv
      have husers : curEmployees (deleteMyEmployee d e) x₀.hrEmail =
          curEmployees d x₀.hrEmail := rfl
      rw [husers, hinv]
      intro hcontra
      injection hcontra with hc
      omega

/-- C10 witness: the frame theorem applied to a concrete store in which
the first affiliation matching `emp@x.com` belongs to `hr@beta.com`, a
different HR than the one on the employee's other record. -/
theorem delete_employee_frame_witness :
    (deleteMyEmployee (DB.mk [exHR] [] [] [] [exAffOther, exAff] [] [])
        "emp@x.com").users =
      (DB.mk [exHR] [] [] [] [exAffOther, exAff] [] [] : DB).users ∧
    (deleteMyEmployee (DB.mk [exHR] [] [] [] [exAffOther, exAff] [] [])
        "emp@x.com").assets =
      (DB.mk [exHR] [] [] [] [exAffOther, exAff] [] [] : DB).assets ∧
    (deleteMyEmployee (DB.mk [exHR] [] [] [] [exAffOther, exAff] [] [])
        "emp@x.com").requests =
      (DB.mk [exHR] [] [] [] [exAffOther, exAff] [] [] : DB).requests ∧
    (deleteMyEmployee (DB.mk [exHR] [] [] [] [exAffOther, exAff] [] [])
        "emp@x.com").assignedAssets =
      (DB.mk [exHR] [] [] [] [exAffOther, exAff] [] [] : DB).assignedAssets ∧
    (deleteMyEmployee (DB.mk [exHR] [] [] [] [exAffOther, exAff] [] [])
        "emp@x.com").packages =
      (DB.mk [exHR] [] [] [] [exAffOther, exAff] [] [] : DB).packages ∧
    (deleteMyEmployee (DB.mk [exHR] [] [] [] [exAffOther, exAff] [] [])
        "emp@x.com").payments =
      (DB.mk [exHR] [] [] [] [exAffOther, exAff] [] [] : DB).payments ∧
    ((DB.mk [exHR] [] [] [] [exAffOther, exAff] [] [] : DB).employeeAffiliations.find?
        (fun x => x.employeeEmail == "emp@x.com") = none →
      deleteMyEmployee (DB.mk [exHR] [] [] [] [exAffOther, exAff] [] [])
        "emp@x.com" = DB.mk [exHR] [] [] [] [exAffOther, exAff] [] []) ∧
    (∀ x₀,
      (DB.mk [exHR] [] [] [] [exAffOther, exAff] [] [] : DB).employeeAffiliations.find?
        (fun x => x.employeeEmail == "emp@x.com") = some x₀ →
      (deleteMyEmployee (DB.mk [exHR] [] [] [] [exAffOther, exAff] [] [])
          "emp@x.com").employeeAffiliations.length + 1 =
        (DB.mk [exHR] [] [] [] [exAffOther, exAff] [] [] : DB).employeeAffiliations.length ∧
      affHRCount (deleteMyEmployee (DB.mk [exHR] [] [] [] [exAffOther, exAff] [] [])
          "emp@x.com") x₀.hrEmail + 1 =
        affHRCount (DB.mk [exHR] [] [] [] [exAffOther, exAff] [] []) x₀.hrEmail ∧
      (curEmployees (DB.mk [exHR] [] [] [] [exAffOther, exAff] [] []) x₀.hrEmail =
          some ((affHRCount (DB.mk [exHR] [] [] [] [exAffOther, exAff] [] [])
            x₀.hrEmail : Nat) : Int) →
        curEmployees (deleteMyEmployee
            (DB.mk [exHR] [] [] [] [exAffOther, exAff] [] []) "emp@x.com")
            x₀.hrEmail ≠
          some ((affHRCount (deleteMyEmployee
            (DB.mk [exHR] [] [] [] [exAffOther, exAff] [] []) "emp@x.com")
            x₀.hrEmail : Nat) : Int))) :=
  delete_employee_frame (DB.mk [exHR] [] [] [] [exAffOther, exAff] [] [])
    "emp@x.com"

/-! ### C3 — at-most-once crediting per external transaction id -/

/-- C3: when the session is `paid`, its package exists, the paying HR
account exists and no Payment with the session's transaction id is
recorded yet, a first `paymentSuccess` call succeeds, leaves exactly one
Payment with that transaction id, and credits the HR's `packageLimit` by
the seat grant exactly once; a second call for the same session answers
the already-recorded receipt and changes nothing. -/
theorem payment_credits_once (d : DB) (s : StripeSession) (now now₂ : String)
    (hr : Account)
    (hpaid : s.paymentStatus = "paid")
    (hpkg : (d.packages.find? (fun p => p.id == s.packageId)).isSome = true)
    (hhr : d.users.find? (fun u => u.email == s.customerEmail) = some hr)
    (hnone : d.payments.find? (fun p => p.transitionId == s.paymentIntent)
      = none) :
    (paymentSuccess d s now).1 = .ok ∧
    ((paymentSuccess d s now).2.payments.filter
        (fun p => p.transitionId == s.paymentIntent)).length = 1 ∧
    curPackageLimit (paymentSuccess d s now).2 s.customerEmail =
      some (hr.packageLimit + s.employeeLimit) ∧
    paymentSuccess (paymentSuccess d s now).2 s now₂ =
      (.paymentAlreadyRecorded, (paymentSuccess d s now).2) := by
  obtain ⟨pkg, hpkg'⟩ := Option.isSome_iff_exists.mp hpkg
  have hnil : d.payments.filter (fun p => p.transitionId == s.paymentIntent)
      = [] :=
    List.filter_eq_nil_iff.mpr (List.find?_eq_none.mp hnone)
  refine ⟨?_, ?_, ?_, ?_⟩
  · simp [paymentSuccess, hpaid, hpkg', hnone, hhr]
  · simp [paymentSuccess, hpaid, hpkg', hnone, hhr, List.filter_append, hnil]
  · have hmap := find?_updateFirst_map
      (p := fun u => u.email == s.customerEmail)
      (fun u => { u with packageLimit := hr.packageLimit + s.employeeLimit })
      d.users (fun a ha => ha)
    simp [curPackageLimit, paymentSuccess, hpaid, hpkg', hnone, hhr, hmap]
  · simp [paymentSuccess, hpaid, hpkg', hnone, hhr, List.find?_append]

/-- C3 witness: the at-most-once crediting theorem applied to a concrete
store with HR `hr@acme.com` (limit 5), package `p1` and a paid session of
10 seats: the limit becomes 15 once and the replay changes nothing. -/
theorem payment_credits_once_witness :
    (paymentSuccess (DB.mk [exHR] [] [] [] [] [exPkg] []) exSession "t1").1
      = .ok ∧
    ((paymentSuccess (DB.mk [exHR] [] [] [] [] [exPkg] [])
        exSession "t1").2.payments.filter
        (fun p => p.transitionId == exSession.paymentIntent)).length = 1 ∧
    curPackageLimit (paymentSuccess (DB.mk [exHR] [] [] [] [] [exPkg] [])
        exSession "t1").2 exSession.customerEmail =
      some (exHR.packageLimit + exSession.employeeLimit) ∧
    paymentSuccess (paymentSuccess (DB.mk [exHR] [] [] [] [] [exPkg] [])
        exSession "t1").2 exSession "t2" =
      (.paymentAlreadyRecorded,
        (paymentSuccess (DB.mk [exHR] [] [] [] [] [exPkg] [])
          exSession "t1").2) :=
  payment_credits_once (DB.mk [exHR] [] [] [] [] [exPkg] []) exSession
    "t1" "t2" exHR rfl rfl rfl rfl

/-! ### C2 — affiliation creation is idempotent per (employee, HR) pair -/

/-- The two Workflow Engine operations that can link an employee to an
HR: a direct assignment or the approval of a request. -/
inductive LinkOp where
  | assign (a : Assignment) (now : String)
  | approve (id st aid now : String)

/-- Run a linking operation against the store. -/
def runLink (d : DB) : LinkOp → Outcome × DB
  | .assign a now => assignDirectly d a now
  | .approve id st aid now => approveRequest d id st aid now

/-- The (employee, HR) pair a linking operation links, read off the state
it runs in: the body's pair for a direct assignment, the targeted
request's (requester, HR) pair for an approval. -/
def LinkOp.pairIn (d : DB) : LinkOp → Option (String × String)
  | .assign a _ => some (a.employeeEmail, a.hrEmail)
  | .approve id _ _ _ =>
      (d.requests.find? (fun x => x.id == id)).map
        (fun r => (r.requesterEmail, r.hrEmail))

/-- The success outcome of each linking operation (201 for a direct
assignment, 200 for an approval). -/
def LinkOp.succOutcome : LinkOp → Outcome
  | .assign _ _ => .created
  | .approve _ _ _ _ => .ok

/-- Auxiliary to C2: the pair count is zero exactly when the handlers'
affiliation lookup comes back empty. -/
theorem affPairCount_eq_zero_iff (d : DB) (e h : String) :
    affPairCount d e h = 0 ↔
      d.employeeAffiliations.find?
        (fun x => x.employeeEmail == e && x.hrEmail == h) = none := by
  unfold affPairCount
  rw [List.length_eq_zero, List.filter_eq_nil_iff, List.find?_eq_none]

/-- Auxiliary to C2: one successful linking operation for the pair (e, h)
creates the pair's Affiliation and bumps the HR's `currentEmployees`
exactly when no Affiliation for the pair existed beforehand; when one
already exists it changes neither. -/
theorem linkOp_step (d : DB) (op : LinkOp) (e h : String)
    (hp : op.pairIn d = some (e, h))
    (hs : (runLink d op).1 = op.succOutcome) :
    ∃ c, curEmployees d h = some c ∧
      ((affPairCount d e h = 0 ∧
          affPairCount (runLink d op).2 e h = 1 ∧
          curEmployees (runLink d op).2 h = some (c + 1)) ∨
       (affPairCount d e h ≠ 0 ∧
          affPairCount (runLink d op).2 e h = affPairCount d e h ∧
          curEmployees (runLink d op).2 h = some c)) := by
  cases op with
  | assign a now =>
    simp only [LinkOp.pairIn, Option.some.injEq, Prod.mk.injEq] at hp
    obtain ⟨he, hh⟩ := hp
    subst he
    subst hh
    simp only [runLink, LinkOp.succOutcome] at hs ⊢
    cases hf : d.assignedAssets.find? (fun x =>
        x.employeeEmail == a.employeeEmail && x.assetId == a.assetId) with
    | some _ => simp [assignDirectly, hf] at hs
    | none =>
      cases hu : d.users.find? (fun u => u.email == a.hrEmail) with
      | none => simp [assignDirectly, hf, hu] at hs
      | some hrA =>
        by_cases hl : (hrA.packageLimit == 0) = true
        · simp [assignDirectly, hf, hu, hl] at hs
        · refine ⟨hrA.currentEmployees, by simp [curEmployees, hu], ?_⟩
          cases hea : d.employeeAffiliations.find? (fun x =>
              x.employeeEmail == a.employeeEmail
                && x.hrEmail == a.hrEmail) with
          | none =>
            left
            have hnil : d.employeeAffiliations.filter (fun x =>
                x.employeeEmail == a.employeeEmail
                  && x.hrEmail == a.hrEmail) = [] :=
              List.filter_eq_nil_iff.mpr (List.find?_eq_none.mp hea)
            have hmap := find?_updateFirst_map
              (p := fun u => u.email == a.hrEmail)
              (hrAfterLink hrA true) d.users (fun x hx => hx)
            refine ⟨(affPairCount_eq_zero_iff d _ _).mpr hea, ?_, ?_⟩
            · simp [assignDirectly, hf, hu, hl, hea, affPairCount,
                List.filter_append, hnil]
            · simp [assignDirectly, hf, hu, hl, hea, curEmployees, hmap,
                hrAfterLink]
          | some aff =>
            right
            have hz : affPairCount d a.employeeEmail a.hrEmail ≠ 0 := by
              intro h0
              rw [affPairCount_eq_zero_iff, hea] at h0
              exact Option.noConfusion h0
            have hmap := find?_updateFirst_map
              (p := fun u => u.email == a.hrEmail)
              (hrAfterLink hrA false) d.users (fun x hx => hx)
            refine ⟨hz, ?_, ?_⟩
            · simp [assignDirectly, hf, hu, hl, hea, affPairCount]
            · simp [assignDirectly, hf, hu, hl, hea, curEmployees, hmap,
                hrAfterLink]
  | approve id st aid now =>
    simp only [LinkOp.pairIn] at hp
    obtain ⟨req, hR, hpair⟩ := Option.map_eq_some'.mp hp
    injection hpair with he hh
    subst he
    subst hh
    simp only [runLink, LinkOp.succOutcome] at hs ⊢
    cases hA : d.assets.find? (fun x => x.id == aid) with
    | none => simp [approveRequest, hA] at hs
    | some asset =>
      by_cases hap : (req.requestStatus == "approved") = true
      · simp [approveRequest, hA, hR, hap] at hs
      · cases hasg : d.assignedAssets.find? (fun x =>
            x.assetId == asset.id && x.employeeEmail == req.requesterEmail
              && x.status == "assigned") with
        | some _ => simp [approveRequest, hA, hR, hap, hasg] at hs
        | none =>
          cases hu : d.users.find? (fun u => u.email == req.hrEmail) with
          | none => simp [approveRequest, hA, hR, hap, hasg, hu] at hs
          | some hrA =>
            by_cases hl : (hrA.packageLimit == 0) = true
            · simp [approveRequest, hA, hR, hap, hasg, hu, hl] at hs
            · have hrAEmail : hrA.email = req.hrEmail := by
                have hb := List.find?_some hu
                simpa [beq_iff_eq] using hb
              refine ⟨hrA.currentEmployees, by simp [curEmployees, hu], ?_⟩
              cases hea : d.employeeAffiliations.find? (fun x =>
                  x.employeeEmail == req.requesterEmail
                    && x.hrEmail == req.hrEmail) with
              | none =>
                left
                have hnil : d.employeeAffiliations.filter (fun x =>
                    x.employeeEmail == req.requesterEmail
                      && x.hrEmail == req.hrEmail) = [] :=
                  List.filter_eq_nil_iff.mpr (List.find?_eq_none.mp hea)
                have hmap := find?_updateFirst_map
                  (p := fun u => u.email == req.hrEmail)
                  (hrAfterLink hrA true) d.users (fun x hx => hx)
                refine ⟨(affPairCount_eq_zero_iff d _ _).mpr hea, ?_, ?_⟩
                · simp [approveRequest, hA, hR, hap, hasg, hu, hl, hea,
                    affPairCount, List.filter_append, hnil]
                · simp [approveRequest, hA, hR, hap, hasg, hu, hl, hea,
                    curEmployees, hrAEmail, hmap, hrAfterLink]
              | some aff =>
                right
                have hz : affPairCount d req.requesterEmail req.hrEmail ≠ 0
                    := by
                  intro h0
                  rw [affPairCount_eq_zero_iff, hea] at h0
                  exact Option.noConfusion h0
                have hmap := find?_updateFirst_map
                  (p := fun u => u.email == req.hrEmail)
                  (hrAfterLink hrA false) d.users (fun x hx => hx)
                refine ⟨hz, ?_, ?_⟩
                · simp [approveRequest, hA, hR, hap, hasg, hu, hl, hea,
                    affPairCount]
                · simp [approveRequest, hA, hR, hap, hasg, hu, hl, hea,
                    curEmployees, hrAEmail, hmap, hrAfterLink]

/-- C2: two successful linking operations in succession for the same
(employee, HR) pair — each a direct assignment or a request approval —
increment the HR's `currentEmployees` by exactly 1 in total, not 2, and
leave exactly one Affiliation record for the pair: both are created only
by the first link. -/
theorem double_link_increments_once (d : DB) (op₁ op₂ : LinkOp)
    (e h : String)
    (h0 : affPairCount d e h = 0)
    (hp₁ : op₁.pairIn d = some (e, h))
    (hs₁ : (runLink d op₁).1 = op₁.succOutcome)
    (hp₂ : op₂.pairIn (runLink d op₁).2 = some (e, h))
    (hs₂ : (runLink (runLink d op₁).2 op₂).1 = op₂.succOutcome) :
    ∃ c, curEmployees d h = some c ∧
      curEmployees (runLink (runLink d op₁).2 op₂).2 h = some (c + 1) ∧
      affPairCount (runLink (runLink d op₁).2 op₂).2 e h = 1 := by
  obtain ⟨c, hc, hstep⟩ := linkOp_step d op₁ e h hp₁ hs₁
  rcases hstep with ⟨-, ha₁, hc₁⟩ | ⟨hne, -, -⟩
  · obtain ⟨c', hc', hstep₂⟩ := linkOp_step (runLink d op₁).2 op₂ e h hp₂ hs₂
    rw [hc₁] at hc'
    injection hc' with hc'
    subst hc'
    rcases hstep₂ with ⟨hz, -, -⟩ | ⟨-, ha₂, hcur₂⟩
    · rw [ha₁] at hz
      exact absurd hz one_ne_zero
    · refine ⟨c, hc, ?_, ?_⟩
      · rw [hcur₂]
      · rw [ha₂, ha₁]
  · exact absurd h0 hne

/-- C2 witness: the idempotent-affiliation theorem applied to a concrete
store — first a direct assignment of asset `a1`, then an approval of the
pending request for asset `a2`, both for the pair
(`emp@x.com`, `hr@acme.com`): `currentEmployees` goes from 0 to 1, not 2,
and exactly one Affiliation for the pair exists at the end. -/
theorem double_link_increments_once_witness :
    ∃ c, curEmployees
        (DB.mk [exHR] [exAsset1, exAsset2] [exReqPending2] [] [] [] [])
        "hr@acme.com" = some c ∧
      curEmployees (runLink (runLink
          (DB.mk [exHR] [exAsset1, exAsset2] [exReqPending2] [] [] [] [])
          (.assign exAsgBody "t2")).2
          (.approve "r2" "approved" "a2" "t3")).2 "hr@acme.com" =
        some (c + 1) ∧
      affPairCount (runLink (runLink
          (DB.mk [exHR] [exAsset1, exAsset2] [exReqPending2] [] [] [] [])
          (.assign exAsgBody "t2")).2
          (.approve "r2" "approved" "a2" "t3")).2
        "emp@x.com" "hr@acme.com" = 1 :=
  double_link_increments_once
    (DB.mk [exHR] [exAsset1, exAsset2] [exReqPending2] [] [] [] [])
    (.assign exAsgBody "t2") (.approve "r2" "approved" "a2" "t3")
    "emp@x.com" "hr@acme.com" rfl rfl rfl rfl rfl
